import Mathlib

/-!
Shallow embedding of `src/vajra.py` (a host-monitoring agent) covering the
classes the specification's claims are about: `CacheCleaner` (best-effort
RAM reclamation), `AlertManager` (threshold rules with a memory cooldown)
and `MetricsCollector` (network rates, throttled process-table scan, pid
tracking cache).

OS interactions (psutil queries, `gc.collect`, ctypes, `os.system`,
wall-clock time) are modelled as explicit inputs to each call.  Python
floats are modelled as rationals; the unbounded Python integers of the OS
byte counters are naturals cast into ℚ at the subtraction, exactly where
the source subtracts them.  Fallible operations are modelled with explicit
outcome data; an exception that the source catches is a recorded outcome,
never a stuck state.
-/

/-! ### CacheCleaner (src/vajra.py lines 47-120) -/

/-- Outcome of one platform trim helper as seen by `clean`: the helper
either returned a boolean, or raised an exception which the
`except Exception` handler in `clean` (line 73) catches. -/
inductive StepOutcome where
  | ok (b : Bool)
  | raised
  deriving DecidableEq

/-- OS behaviour seen by `CacheCleaner._windows_trim` (lines 78-102).
The ctypes/windll setup sits outside the per-pid `try`, so a raise there
escapes the helper; each visible pid either gets its working set trimmed
(handle opened, `EmptyWorkingSet` succeeded) or contributes nothing, with
per-pid failures swallowed by the inner `except` (lines 96-97). -/
structure WinEnv where
  ctypesRaises : Bool
  pidTrims : List Bool
  deriving DecidableEq

/-- `_windows_trim`: raises iff the ctypes setup raises; otherwise returns
whether the number of trimmed processes is positive (lines 99-102). -/
def windowsTrim (e : WinEnv) : StepOutcome :=
  if e.ctypesRaises then .raised
  else .ok (e.pidTrims.any (fun b => b))

/-- OS behaviour seen by `CacheCleaner._linux_trim` (lines 104-114):
loading libc can raise, `malloc_trim` may be absent, and calling it can
raise; the whole body is inside `try ... except Exception: pass` followed
by `return False`, so the helper itself never raises. -/
structure LinuxEnv where
  cdllRaises : Bool
  hasMallocTrim : Bool
  mallocTrimRaises : Bool
  deriving DecidableEq

/-- `_linux_trim`: True iff libc loaded, `malloc_trim` exists and its call
completed; every exception is caught inside the helper (lines 104-114). -/
def linuxTrim (e : LinuxEnv) : Bool :=
  if e.cdllRaises then false
  else if e.hasMallocTrim then (if e.mallocTrimRaises then false else true)
  else false

/-- OS behaviour seen by `CacheCleaner._mac_trim` (lines 116-120):
`os.system("purge ...")` may raise (caught, returning False) or exit with
some status code. -/
structure MacEnv where
  systemRaises : Bool
  exitCode : Int
  deriving DecidableEq

/-- `_mac_trim`: True iff `os.system` completed with exit status 0. -/
def macTrim (e : MacEnv) : Bool :=
  if e.systemRaises then false else decide (e.exitCode = 0)

/-- Everything outside the program that one `clean()` call observes:
the platform string fixed at construction (line 56) and the behaviour of
`gc.collect` and of the three trim helpers on this call. -/
structure CleanEnv where
  osType : String
  gcRaises : Bool
  win : WinEnv
  lin : LinuxEnv
  mac : MacEnv
  deriving DecidableEq

/-- Instrumented result of `clean()` (lines 58-76): `success` is the
returned boolean, `attemptedPlatform` records whether one of the three
platform trim helpers was invoked. -/
structure CleanResult where
  success : Bool
  attemptedPlatform : Bool
  deriving DecidableEq

/-- `CacheCleaner.clean` (lines 58-76).  `success` starts False; inside
the `try`, `gc.collect()` runs and `success = True`; then exactly one trim
helper is dispatched on `os_type`, or none when the platform is not one of
the three recognised families.  A raise from `gc.collect` or from
`_windows_trim` jumps to the `except` handler with `success` holding its
value at the raise point, and `clean` returns that value normally --
`clean` itself never raises. -/
def clean (env : CleanEnv) : CleanResult :=
  if env.gcRaises then
    { success := false, attemptedPlatform := false }
  else if env.osType = "windows" then
    match windowsTrim env.win with
    | .ok b => { success := true || b, attemptedPlatform := true }
    | .raised => { success := true, attemptedPlatform := true }
  else if env.osType = "linux" then
    { success := true || linuxTrim env.lin, attemptedPlatform := true }
  else if env.osType = "darwin" then
    { success := true || macTrim env.mac, attemptedPlatform := true }
  else
    { success := true, attemptedPlatform := false }

/-- The three OS families recognised by the dispatch in lines 66-71. -/
def recognizedOS (os : String) : Bool :=
  decide (os = "windows") || decide (os = "linux") || decide (os = "darwin")

/-- True iff some operation inside this `clean()` call (or inside one of
its helpers) raised an exception on this environment.  Every such raise is
caught by a handler in the source, either inside the helper or by the
`except Exception` in `clean` itself. -/
def exceptionDuringClean (env : CleanEnv) : Bool :=
  env.gcRaises ||
    (!env.gcRaises &&
      (if env.osType = "windows" then env.win.ctypesRaises
       else if env.osType = "linux" then
         env.lin.cdllRaises || (env.lin.hasMallocTrim && env.lin.mallocTrimRaises)
       else if env.osType = "darwin" then env.mac.systemRaises
       else false))

/-! ### AlertManager (src/vajra.py lines 127-165) -/

/-- The externally visible emissions of one `check()` call, in program
order.  `alertCpu p` / `alertMemory p` are the appends to the returned
`alerts` list (the strings "High CPU usage: p%" / "High Memory usage:
p%"); `setLastTrigger t` is the write `last_trigger["memory"] = now`;
`notifyDetected p` is the ui callback "High memory (p%) detected.
Cleaning RAM..."; `reclaimInvoked` is the call `self.cleaner.clean()`;
`notifyCompleted` / `notifySkipped` are the ui callbacks "RAM cleanup
completed (best-effort)" / "RAM cleanup skipped (OS restricted)". -/
inductive Event where
  | alertCpu (p : ℚ)
  | alertMemory (p : ℚ)
  | setLastTrigger (t : ℚ)
  | notifyDetected (p : ℚ)
  | reclaimInvoked
  | notifyCompleted
  | notifySkipped
  deriving DecidableEq

/-- Mutable state of `AlertManager`: the `"memory"` entry of the
`last_trigger` dict (line 130); `none` models the key being absent, in
which case `last_trigger.get("memory", 0)` yields 0. -/
structure AlertState where
  lastTrigger : Option ℚ
  deriving DecidableEq

/-- Result of one `check()` call: the returned `alerts` list, the full
trace of emissions in execution order, and the state afterwards. -/
structure CheckResult where
  alerts : List Event
  trace : List Event
  state : AlertState
  deriving DecidableEq

/-- `self.thresholds["cpu"]` (line 134). -/
def cpuThreshold : ℚ := 85

/-- `self.thresholds["memory"]` (line 135). -/
def memThreshold : ℚ := 90

/-- `self.cooldown` in seconds (line 131). -/
def cooldown : ℚ := 60

/-- `AlertManager.check` (lines 138-165).  `check` reads only
`metrics["cpu"]["percent"]` and `metrics["memory"]["percent"]` from the
metrics dict, passed here as `cpuPercent` and `memPercent`; `now` is the
`time.time()` reading at line 140, `env` the OS behaviour of the nested
`clean()` call, and `hasCallback` whether a `ui_callback` was supplied. -/
def check (s : AlertState) (cpuPercent memPercent now : ℚ) (env : CleanEnv)
    (hasCallback : Bool) : CheckResult :=
  let cpuAlerts : List Event :=
    if cpuThreshold < cpuPercent then [Event.alertCpu cpuPercent] else []
  if memThreshold < memPercent then
    if cooldown < now - s.lastTrigger.getD 0 then
      let detected : List Event :=
        if hasCallback then [Event.notifyDetected memPercent] else []
      let cleaned : Bool := (clean env).success
      let doneNote : List Event :=
        if hasCallback then
          [if cleaned = true then Event.notifyCompleted else Event.notifySkipped]
        else []
      { alerts := cpuAlerts ++ [Event.alertMemory memPercent],
        trace := cpuAlerts ++ [Event.setLastTrigger now] ++ detected
          ++ [Event.reclaimInvoked] ++ doneNote
          ++ [Event.alertMemory memPercent],
        state := { lastTrigger := some now } }
    else
      { alerts := cpuAlerts, trace := cpuAlerts, state := s }
  else
    { alerts := cpuAlerts, trace := cpuAlerts, state := s }

/-- One evaluation cycle as the driver loop sees it: the snapshot values
`check` reads, the clock reading, and the OS behaviour of a potential
reclamation call. -/
structure CycleInput where
  cpu : ℚ
  mem : ℚ
  now : ℚ
  env : CleanEnv
  hasCallback : Bool
  deriving DecidableEq

/-- Sequential `check()` calls threading the `AlertManager` state, as the
monitor loop performs once per cycle (line 558). -/
def runCheck : AlertState → List CycleInput → AlertState × List CheckResult
  | s, [] => (s, [])
  | s, c :: cs =>
    let r := check s c.cpu c.mem c.now c.env c.hasCallback
    let tail := runCheck r.state cs
    (tail.1, r :: tail.2)

/-- Number of cycles in a run on which the reclamation call fired. -/
def countFires (s : AlertState) (cs : List CycleInput) : Nat :=
  ((runCheck s cs).2.filter (fun r => decide (Event.reclaimInvoked ∈ r.trace))).length

/-! ### MetricsCollector (src/vajra.py lines 379-493) -/

/-- The two cumulative OS byte counters of `psutil.net_io_counters()`. -/
structure NetCounters where
  bytesSent : Nat
  bytesRecv : Nat
  deriving DecidableEq

/-- One process as the scan observes it on this cycle.  `ctrFirst` and
`ctrSecond` are the process's cumulative CPU accounting at the two moments
a `cpu_percent(interval=None)` meter can be read during this scan (the
baseline read at line 429 and the `oneshot` read at line 437); a meter
read returns current accounting minus the meter's stored value and stores
the current accounting.  `fails` models `NoSuchProcess`/`AccessDenied`
raised by the detail queries (caught per process at line 447). -/
structure ProcObs where
  pid : Nat
  name : String
  ctrFirst : ℚ
  ctrSecond : ℚ
  memPercent : ℚ
  fails : Bool
  deriving DecidableEq

/-- One entry of the `top_procs` result dicts (lines 441-446). -/
structure ProcInfo where
  pid : Nat
  name : String
  cpu_percent : ℚ
  memory_percent : ℚ
  deriving DecidableEq

/-- The `self.procs` cache: pid, mapped to the stored CPU-accounting
baseline inside the cached psutil `Process` object for that pid. -/
abbrev PidMap := List (Nat × ℚ)

/-- Dict lookup `self.procs[pid]` / `pid in self.procs`. -/
def lookupPid (m : PidMap) (p : Nat) : Option ℚ :=
  match m with
  | [] => none
  | e :: rest => if e.1 = p then some e.2 else lookupPid rest p

/-- Dict deletion `del self.procs[pid]` (no-op when absent). -/
def removePid (m : PidMap) (p : Nat) : PidMap :=
  m.filter (fun e => !(e.1 == p))

/-- In-place update of the stored baseline of an existing entry (the
effect of reading the cached object's cpu meter). -/
def updatePid (m : PidMap) (p : Nat) (v : ℚ) : PidMap :=
  m.map (fun e => if e.1 = p then (p, v) else e)

/-- Lines 412-417: `current_pids = set(psutil.pids())`, then every cached
pid not in it is deleted, i.e. only entries whose pid is live survive. -/
def prunePids (m : PidMap) (live : List Nat) : PidMap :=
  m.filter (fun e => live.contains e.1)

/-- Body of the `for p in psutil.process_iter(...)` loop (lines 422-450)
for one observed process, acting on the cache and the accumulating
`proc_list`.  A pid not in the cache is entered with a discarded baseline
read (`ctrFirst`), then the oneshot read reports
`ctrSecond - ctrFirst` and stores `ctrSecond`; a cached pid reuses its
stored baseline `b`, reporting `ctrSecond - b`.  On
`NoSuchProcess`/`AccessDenied` the pid is deleted from the cache (if
present) and excluded from the results. -/
def processObs (acc : PidMap × List ProcInfo) (o : ProcObs) :
    PidMap × List ProcInfo :=
  if o.fails then
    (removePid acc.1 o.pid, acc.2)
  else
    match lookupPid acc.1 o.pid with
    | none =>
      (acc.1 ++ [(o.pid, o.ctrSecond)],
        acc.2 ++ [⟨o.pid, o.name, o.ctrSecond - o.ctrFirst, o.memPercent⟩])
    | some b =>
      (updatePid acc.1 o.pid o.ctrSecond,
        acc.2 ++ [⟨o.pid, o.name, o.ctrSecond - b, o.memPercent⟩])

/-- One successful scan pass (lines 412-450): prune dead pids first, then
iterate the observed live processes. -/
def scanStep (procs : PidMap) (pids : List Nat) (live : List ProcObs) :
    PidMap × List ProcInfo :=
  live.foldl processObs (prunePids procs pids, [])

/-- Stable descending insertion by `cpu_percent`: an element moves past
exactly the earlier elements with strictly larger cpu, so ties keep their
original order -- the ordering of Python's stable
`sorted(proc_list, key=lambda x: x['cpu_percent'], reverse=True)`. -/
def insertDesc (x : ProcInfo) : List ProcInfo → List ProcInfo
  | [] => [x]
  | y :: ys =>
    if x.cpu_percent < y.cpu_percent then y :: insertDesc x ys else x :: y :: ys

/-- Stable descending sort by `cpu_percent` (line 453). -/
def sortDesc : List ProcInfo → List ProcInfo
  | [] => []
  | x :: xs => insertDesc x (sortDesc xs)

/-- `sorted(proc_list, key=..., reverse=True)[:5]` (line 453). -/
def sortTop (l : List ProcInfo) : List ProcInfo :=
  (sortDesc l).take 5

/-- One `psutil.disk_usage` result (lines 468-473). -/
structure DiskUsage where
  total : Nat
  used : Nat
  free : Nat
  percent : ℚ
  deriving DecidableEq

/-- One `psutil.disk_partitions` entry; `usage = none` models
`PermissionError` from `disk_usage` on its mountpoint (line 474). -/
structure DiskPart where
  device : String
  optsHasCdrom : Bool
  fstype : String
  usage : Option DiskUsage
  deriving DecidableEq

/-- The disk loop (lines 460-475): skip cdrom/empty-fstype partitions and
partitions whose usage query raises `PermissionError`; key the rest by
device name in iteration order. -/
def collectDisks (parts : List DiskPart) : List (String × DiskUsage) :=
  parts.foldl
    (fun acc part =>
      if part.optsHasCdrom || part.fstype = "" then acc
      else
        match part.usage with
        | none => acc
        | some u => acc ++ [(part.device, u)])
    []

/-- Everything outside the program that one `collect()` call observes.
`scanFails` models the enumeration call raising at the start of the
throttled block, which the `except Exception: pass` at line 456 swallows
before any cache mutation. -/
structure CollectInput where
  now : ℚ
  net : NetCounters
  scanFails : Bool
  pids : List Nat
  liveProcs : List ProcObs
  diskParts : List DiskPart
  cpuPercent : ℚ
  cpuFreq : ℚ
  perCore : List ℚ
  memPercent : ℚ
  memTotal : Nat
  memUsed : Nat
  memAvailable : Nat
  deriving DecidableEq

/-- The metrics dict returned by `collect()` (lines 477-493). -/
structure Metrics where
  cpuPercent : ℚ
  cpuFreq : ℚ
  perCore : List ℚ
  memPercent : ℚ
  memTotal : Nat
  memUsed : Nat
  memAvailable : Nat
  disks : List (String × DiskUsage)
  netSent : ℚ
  netRecv : ℚ
  topProcs : List ProcInfo
  deriving DecidableEq

/-- Assembles the returned dict from the input pass-throughs, the two
computed rates, and the top-process list chosen for this cycle. -/
def mkMetrics (i : CollectInput) (sent recv : ℚ) (top : List ProcInfo) :
    Metrics :=
  { cpuPercent := i.cpuPercent, cpuFreq := i.cpuFreq, perCore := i.perCore,
    memPercent := i.memPercent, memTotal := i.memTotal, memUsed := i.memUsed,
    memAvailable := i.memAvailable, disks := collectDisks i.diskParts,
    netSent := sent, netRecv := recv, topProcs := top }

/-- Lines 396-397: `dt = now - self.last_time; if dt == 0: dt = 0.001`.
The divisor is the raw elapsed time unless that is exactly zero. -/
def codeNetDivisor (dtRaw : ℚ) : ℚ :=
  if dtRaw = 0 then 1 / 1000 else dtRaw

/-- Modelled from the spec: the spec's stated network-rate divisor
`max(elapsed_seconds, epsilon)` with epsilon = 0.001 seconds, written
from its words for comparison against `codeNetDivisor`; it is not what
the source computes. -/
def specNetDivisor (dtRaw : ℚ) : ℚ :=
  max dtRaw (1 / 1000)

/-- Mutable state of `MetricsCollector` (lines 380-389). -/
structure CollectorState where
  lastNet : NetCounters
  lastTime : ℚ
  procs : PidMap
  cachedTopProcs : List ProcInfo
  tick : Nat
  deriving DecidableEq

/-- Result of one `collect()` call. -/
structure CollectResult where
  metrics : Metrics
  state : CollectorState
  deriving DecidableEq

/-- `MetricsCollector.collect` (lines 391-493).  Rates are the counter
deltas over `codeNetDivisor` of the elapsed time; the tick is incremented
on every call; a scan runs only when the incremented tick is divisible by
4, and otherwise (or when the scan's enumeration raises) the cached top
list is returned unchanged. -/
def collect (s : CollectorState) (i : CollectInput) : CollectResult :=
  let dt := codeNetDivisor (i.now - s.lastTime)
  let sent := (((i.net.bytesSent : ℚ)) - ((s.lastNet.bytesSent : ℚ))) / dt
  let recv := (((i.net.bytesRecv : ℚ)) - ((s.lastNet.bytesRecv : ℚ))) / dt
  let tick := s.tick + 1
  if tick % 4 = 0 then
    if i.scanFails = true then
      { metrics := mkMetrics i sent recv s.cachedTopProcs,
        state := { lastNet := i.net, lastTime := i.now, procs := s.procs,
                   cachedTopProcs := s.cachedTopProcs, tick := tick } }
    else
      let sr := scanStep s.procs i.pids i.liveProcs
      let top := sortTop sr.2
      { metrics := mkMetrics i sent recv top,
        state := { lastNet := i.net, lastTime := i.now, procs := sr.1,
                   cachedTopProcs := top, tick := tick } }
  else
    { metrics := mkMetrics i sent recv s.cachedTopProcs,
      state := { lastNet := i.net, lastTime := i.now, procs := s.procs,
                 cachedTopProcs := s.cachedTopProcs, tick := tick } }

/-- `MetricsCollector.__init__` (lines 380-389): the seed net counters and
clock reading, an empty pid cache, an empty cached top list, tick 0.  The
two seeding `cpu_percent` calls touch no modelled state. -/
def initState (net0 : NetCounters) (t0 : ℚ) : CollectorState :=
  { lastNet := net0, lastTime := t0, procs := [], cachedTopProcs := [],
    tick := 0 }

/-- Sequential `collect()` calls threading the collector state, as the
monitor loop performs once per cycle (line 556). -/
def runCollect : CollectorState → List CollectInput → CollectorState × List Metrics
  | s, [] => (s, [])
  | s, i :: rest =>
    let r := collect s i
    let tail := runCollect r.state rest
    (tail.1, r.metrics :: tail.2)

/-! ### Concrete fixtures used by counterexamples and witnesses -/

/-- A benign reclamation environment: linux, nothing raises,
`malloc_trim` present. -/
def envOk : CleanEnv :=
  { osType := "linux", gcRaises := false, win := ⟨false, []⟩,
    lin := ⟨false, true, false⟩, mac := ⟨false, 0⟩ }

/-- An unrecognised platform with a successful generic gc step. -/
def envPlan9 : CleanEnv :=
  { osType := "plan9", gcRaises := false, win := ⟨false, []⟩,
    lin := ⟨false, true, false⟩, mac := ⟨false, 0⟩ }

/-- linux, gc succeeds, but loading libc raises inside `_linux_trim`. -/
def envLinRaise : CleanEnv :=
  { osType := "linux", gcRaises := false, win := ⟨false, []⟩,
    lin := ⟨true, false, false⟩, mac := ⟨false, 0⟩ }

/-- linux, `gc.collect()` itself raises. -/
def envGcRaise : CleanEnv :=
  { osType := "linux", gcRaises := true, win := ⟨false, []⟩,
    lin := ⟨false, true, false⟩, mac := ⟨false, 0⟩ }

/-- A baseline collect input: nothing live, nothing failing. -/
def i0 : CollectInput :=
  { now := 1, net := ⟨10, 20⟩, scanFails := false, pids := [],
    liveProcs := [], diskParts := [], cpuPercent := 10, cpuFreq := 0,
    perCore := [], memPercent := 50, memTotal := 100, memUsed := 50,
    memAvailable := 50 }

/-- A fresh collector state (tick 0, empty caches). -/
def s0 : CollectorState := initState ⟨0, 0⟩ 0

/-- Collector state whose previous sent-counter reading was 1000. -/
def s1x : CollectorState :=
  { lastNet := ⟨1000, 0⟩, lastTime := 0, procs := [], cachedTopProcs := [],
    tick := 0 }

/-- Input whose current sent counter, 500, is below the previous 1000:
an OS counter reset between two calls. -/
def i1x : CollectInput :=
  { i0 with now := 1, net := ⟨500, 0⟩ }

/-- Input arriving 0.0005 s after the previous call with one new sent
byte: elapsed time is positive but below the 0.001 epsilon. -/
def i9x : CollectInput :=
  { i0 with now := 1 / 2000, net := ⟨1, 0⟩ }

/-- The process observed by the scan fixtures: pid 42, accounting 5 at the
baseline read and 6 at the oneshot read. -/
def obs42 : ProcObs :=
  { pid := 42, name := "w", ctrFirst := 5, ctrSecond := 6, memPercent := 2,
    fails := false }

/-- Collector state about to scan (tick 3), with pid 42 tracked under an
old stored baseline of 7. -/
def sScan : CollectorState :=
  { lastNet := ⟨0, 0⟩, lastTime := 0, procs := [(42, 7)],
    cachedTopProcs := [], tick := 3 }

/-- Scan input on which pid 42 is absent from `psutil.pids()` but observed
by `process_iter`: the mid-scan reassignment race. -/
def iScan : CollectInput :=
  { i0 with pids := [], liveProcs := [obs42] }

/-- Scan input on which pid 42 has simply disappeared. -/
def iScanA : CollectInput :=
  { i0 with pids := [7], liveProcs := [] }

/-- A cycle with memory at 95 percent at time 100. -/
def cyc1 : CycleInput :=
  { cpu := 0, mem := 95, now := 100, env := envOk, hasCallback := true }

/-- A cycle with memory still at 95 percent thirty seconds later. -/
def cyc2 : CycleInput :=
  { cpu := 0, mem := 95, now := 130, env := envOk, hasCallback := true }

/-! ### Helper lemmas: CacheCleaner -/

/-- `clean` returns normally on every environment, and its boolean result
is True exactly when `gc.collect()` did not raise: `success` is set right
after the gc step and nothing afterwards can unset it. -/
theorem clean_success (env : CleanEnv) : (clean env).success = !env.gcRaises := by
  by_cases hg : env.gcRaises = true
  · simp [clean, hg]
  · have hg' : env.gcRaises = false := by revert hg; cases env.gcRaises <;> simp
    by_cases h1 : env.osType = "windows"
    · cases hw : windowsTrim env.win <;> simp [clean, hg', h1, hw]
    · by_cases h2 : env.osType = "linux"
      · simp [clean, hg', h1, h2]
      · by_cases h3 : env.osType = "darwin" <;> simp [clean, hg', h1, h2, h3]

/-- A platform trim helper is invoked exactly when `gc.collect()` did not
raise and the platform string is one of the three recognised families. -/
theorem clean_attempted (env : CleanEnv) :
    (clean env).attemptedPlatform = (!env.gcRaises && recognizedOS env.osType) := by
  by_cases hg : env.gcRaises = true
  · simp [clean, hg]
  · have hg' : env.gcRaises = false := by revert hg; cases env.gcRaises <;> simp
    by_cases h1 : env.osType = "windows"
    · cases hw : windowsTrim env.win <;> simp [clean, recognizedOS, hg', h1, hw]
    · by_cases h2 : env.osType = "linux"
      · simp [clean, recognizedOS, hg', h1, h2]
      · by_cases h3 : env.osType = "darwin" <;>
          simp [clean, recognizedOS, hg', h1, h2, h3]

/-! ### Helper lemmas: AlertManager -/

/-- The reclamation call appears in a `check` trace exactly when the
memory threshold is exceeded and the cooldown has elapsed. -/
theorem reclaim_mem_iff (s : AlertState) (cpu mem now : ℚ) (env : CleanEnv)
    (cb : Bool) :
    Event.reclaimInvoked ∈ (check s cpu mem now env cb).trace ↔
      (memThreshold < mem ∧ cooldown < now - s.lastTrigger.getD 0) := by
  simp only [check]
  split_ifs <;> simp_all [List.mem_append]

/-- `check` rewrites `last_trigger["memory"]` to `now` exactly on a fresh
trigger, and leaves the state alone otherwise. -/
theorem check_state_eq (s : AlertState) (cpu mem now : ℚ) (env : CleanEnv)
    (cb : Bool) :
    (check s cpu mem now env cb).state =
      (if memThreshold < mem ∧ cooldown < now - s.lastTrigger.getD 0 then
        { lastTrigger := some now } else s) := by
  simp only [check]
  split_ifs <;> first | rfl | tauto

/-- Unfolding `countFires` over the first cycle of a run. -/
theorem countFires_cons (s : AlertState) (c : CycleInput) (cs : List CycleInput) :
    countFires s (c :: cs) =
      (if Event.reclaimInvoked ∈ (check s c.cpu c.mem c.now c.env c.hasCallback).trace
        then 1 else 0)
      + countFires (check s c.cpu c.mem c.now c.env c.hasCallback).state cs := by
  simp only [countFires, runCheck, List.filter_cons, decide_eq_true_eq]
  split_ifs with h <;> simp [Nat.add_comm]

/-- A run none of whose cycles outlasts the cooldown of a recorded trigger
at time `t` fires no reclamation at all and keeps the trigger time. -/
theorem countFires_zero (t : ℚ) (cs : List CycleInput)
    (h : ∀ c ∈ cs, ¬ (cooldown < c.now - t)) :
    countFires { lastTrigger := some t } cs = 0 := by
  induction cs with
  | nil => rfl
  | cons c cs ih =>
    have hc : ¬ (cooldown < c.now - t) := h c (by simp)
    rw [countFires_cons]
    have hnot : Event.reclaimInvoked ∉
        (check { lastTrigger := some t } c.cpu c.mem c.now c.env c.hasCallback).trace := by
      rw [reclaim_mem_iff]
      intro hcon
      exact hc (by simpa using hcon.2)
    have hst : (check { lastTrigger := some t } c.cpu c.mem c.now c.env
        c.hasCallback).state = { lastTrigger := some t } := by
      rw [check_state_eq, if_neg]
      intro hcon
      exact hc (by simpa using hcon.2)
    rw [if_neg hnot, hst]
    simp [ih (fun x hx => h x (List.mem_cons_of_mem c hx))]

/-! ### Helper lemmas: MetricsCollector -/

/-- The reported sent rate is the raw counter delta over the divisor of
lines 396-399, on every call. -/
theorem collect_netSent (s : CollectorState) (i : CollectInput) :
    (collect s i).metrics.netSent =
      (((i.net.bytesSent : ℚ)) - ((s.lastNet.bytesSent : ℚ)))
        / codeNetDivisor (i.now - s.lastTime) := by
  simp only [collect]
  split_ifs <;> rfl

/-- The reported received rate, likewise. -/
theorem collect_netRecv (s : CollectorState) (i : CollectInput) :
    (collect s i).metrics.netRecv =
      (((i.net.bytesRecv : ℚ)) - ((s.lastNet.bytesRecv : ℚ)))
        / codeNetDivisor (i.now - s.lastTime) := by
  simp only [collect]
  split_ifs <;> rfl

/-- The tick is incremented exactly once on every call, scan or not. -/
theorem collect_tick (s : CollectorState) (i : CollectInput) :
    (collect s i).state.tick = s.tick + 1 := by
  simp only [collect]
  split_ifs <;> rfl

/-- A call whose incremented tick is not divisible by 4 performs no scan:
cache and pid map are untouched and the cached top list is returned. -/
theorem collect_noScan (s : CollectorState) (i : CollectInput)
    (h : (s.tick + 1) % 4 ≠ 0) :
    (collect s i).state.procs = s.procs
    ∧ (collect s i).state.cachedTopProcs = s.cachedTopProcs
    ∧ (collect s i).metrics.topProcs = s.cachedTopProcs
    ∧ (collect s i).state.tick = s.tick + 1 := by
  simp only [collect]
  rw [if_neg h]
  exact ⟨rfl, rfl, rfl, rfl⟩

/-- A call whose incremented tick is divisible by 4, with a working
enumeration, runs the scan: the pid map becomes the scan's map and the
returned and cached top lists are the sorted truncation of its output. -/
theorem collect_scan (s : CollectorState) (i : CollectInput)
    (h : (s.tick + 1) % 4 = 0) (hf : i.scanFails = false) :
    (collect s i).state.procs = (scanStep s.procs i.pids i.liveProcs).1
    ∧ (collect s i).metrics.topProcs = sortTop (scanStep s.procs i.pids i.liveProcs).2
    ∧ (collect s i).state.cachedTopProcs
        = sortTop (scanStep s.procs i.pids i.liveProcs).2 := by
  simp only [collect]
  rw [if_pos h, if_neg (by simp [hf])]
  exact ⟨rfl, rfl, rfl⟩

/-- Across a run in which no call's incremented tick hits a multiple of 4,
every returned top list is the cached list from before the run. -/
theorem runCollect_noScan (is : List CollectInput) (s : CollectorState)
    (h : ∀ j, j < is.length → (s.tick + j + 1) % 4 ≠ 0) :
    ∀ m ∈ (runCollect s is).2, m.topProcs = s.cachedTopProcs := by
  induction is generalizing s with
  | nil => intro m hm; simp [runCollect] at hm
  | cons i rest ih =>
    intro m hm
    have h0 : (s.tick + 1) % 4 ≠ 0 := by simpa using h 0 (by simp)
    have hc := collect_noScan s i h0
    simp only [runCollect, List.mem_cons] at hm
    rcases hm with rfl | hm
    · exact hc.2.2.1
    · have hrest : ∀ j, j < rest.length → ((collect s i).state.tick + j + 1) % 4 ≠ 0 := by
        intro j hj
        rw [hc.2.2.2]
        have := h (j + 1) (by simpa using Nat.succ_lt_succ hj)
        omega
      have hm2 := ih (collect s i).state hrest m hm
      rw [hc.2.1] at hm2
      exact hm2

/-- Unfolding equation of `lookupPid` on a cons cell. -/
theorem lookupPid_cons (e : Nat × ℚ) (rest : PidMap) (p : Nat) :
    lookupPid (e :: rest) p = if e.1 = p then some e.2 else lookupPid rest p := rfl

/-- Looking a pid up in a filtered map yields nothing when every entry
carrying that pid fails the filter. -/
theorem lookupPid_filter_none (m : PidMap) (p : Nat) (q : Nat × ℚ → Bool)
    (h : ∀ e ∈ m, e.1 = p → q e = false) :
    lookupPid (m.filter q) p = none := by
  induction m with
  | nil => rfl
  | cons e rest ih =>
    rw [List.filter_cons]
    by_cases hq : q e = true
    · rw [if_pos hq, lookupPid_cons]
      by_cases he : e.1 = p
      · exact absurd hq (by simp [h e (by simp) he])
      · rw [if_neg he]
        exact ih (fun x hx hxp => h x (by simp [hx]) hxp)
    · rw [if_neg hq]
      exact ih (fun x hx hxp => h x (by simp [hx]) hxp)

/-- Filtering cannot create an entry for an absent pid. -/
theorem lookupPid_filter_of_none (m : PidMap) (p : Nat) (q : Nat × ℚ → Bool)
    (h : lookupPid m p = none) :
    lookupPid (m.filter q) p = none := by
  induction m with
  | nil => rfl
  | cons e rest ih =>
    rw [lookupPid_cons] at h
    by_cases he : e.1 = p
    · rw [if_pos he] at h
      exact absurd h (by simp)
    · rw [if_neg he] at h
      rw [List.filter_cons]
      by_cases hq : q e = true
      · rw [if_pos hq, lookupPid_cons, if_neg he]
        exact ih h
      · rw [if_neg hq]
        exact ih h

/-- Appending an entry for a different pid does not change a lookup. -/
theorem lookupPid_append_ne (m : PidMap) (q : Nat) (v : ℚ) (p : Nat)
    (h : q ≠ p) :
    lookupPid (m ++ [(q, v)]) p = lookupPid m p := by
  induction m with
  | nil => simp [lookupPid_cons, h, lookupPid]
  | cons e rest ih =>
    rw [List.cons_append, lookupPid_cons, lookupPid_cons]
    by_cases he : e.1 = p
    · rw [if_pos he, if_pos he]
    · rw [if_neg he, if_neg he]
      exact ih

/-- Appending an entry for a pid absent from the map makes lookups of that
pid find the appended value. -/
theorem lookupPid_append_self (m : PidMap) (p : Nat) (v : ℚ)
    (h : lookupPid m p = none) :
    lookupPid (m ++ [(p, v)]) p = some v := by
  induction m with
  | nil => simp [lookupPid_cons]
  | cons e rest ih =>
    rw [lookupPid_cons] at h
    by_cases he : e.1 = p
    · rw [if_pos he] at h
      exact absurd h (by simp)
    · rw [if_neg he] at h
      rw [List.cons_append, lookupPid_cons, if_neg he]
      exact ih h

/-- Deleting a different pid does not change a lookup. -/
theorem lookupPid_removePid_ne (m : PidMap) (q p : Nat) (h : q ≠ p) :
    lookupPid (removePid m q) p = lookupPid m p := by
  induction m with
  | nil => rfl
  | cons e rest ih =>
    simp only [removePid, List.filter_cons] at ih ⊢
    by_cases he : e.1 = q
    · rw [if_neg (by simp [he])]
      rw [lookupPid_cons, if_neg (fun hp => h (he ▸ hp))]
      exact ih
    · rw [if_pos (by simp [he]), lookupPid_cons, lookupPid_cons]
      by_cases hp : e.1 = p
      · rw [if_pos hp, if_pos hp]
      · rw [if_neg hp, if_neg hp]
        exact ih

/-- Updating the stored baseline of a different pid does not change a
lookup. -/
theorem lookupPid_updatePid_ne (m : PidMap) (q : Nat) (v : ℚ) (p : Nat)
    (h : q ≠ p) :
    lookupPid (updatePid m q v) p = lookupPid m p := by
  induction m with
  | nil => rfl
  | cons e rest ih =>
    simp only [updatePid, List.map_cons] at ih ⊢
    by_cases he : e.1 = q
    · rw [if_pos he, lookupPid_cons, lookupPid_cons]
      rw [if_neg (show ¬ ((q, v).1 = p) from h), if_neg (fun hp => h (he ▸ hp))]
      exact ih
    · rw [if_neg he, lookupPid_cons, lookupPid_cons]
      by_cases hp : e.1 = p
      · rw [if_pos hp, if_pos hp]
      · rw [if_neg hp, if_neg hp]
        exact ih

/-- Processing an observation of a different pid does not change what a
lookup of `p` sees. -/
theorem processObs_lookup_ne (acc : PidMap × List ProcInfo) (o : ProcObs)
    (p : Nat) (h : o.pid ≠ p) :
    lookupPid (processObs acc o).1 p = lookupPid acc.1 p := by
  unfold processObs
  by_cases hf : o.fails = true
  · rw [if_pos hf]
    exact lookupPid_removePid_ne acc.1 o.pid p h
  · rw [if_neg hf]
    cases hl : lookupPid acc.1 o.pid
    · simpa using lookupPid_append_ne acc.1 o.pid o.ctrSecond p h
    · simpa using lookupPid_updatePid_ne acc.1 o.pid _ p h

/-- Folding the loop body over observations of other pids preserves what a
lookup of `p` sees. -/
theorem foldl_processObs_lookup_ne (l : List ProcObs)
    (acc : PidMap × List ProcInfo) (p : Nat) (h : ∀ o ∈ l, o.pid ≠ p) :
    lookupPid (l.foldl processObs acc).1 p = lookupPid acc.1 p := by
  induction l generalizing acc with
  | nil => rfl
  | cons o rest ih =>
    rw [List.foldl_cons]
    rw [ih (processObs acc o) (fun x hx => h x (by simp [hx]))]
    exact processObs_lookup_ne acc o p (h o (by simp))

/-- The loop body only appends to the accumulating result list, so
membership is preserved by folding it. -/
theorem foldl_processObs_mem (l : List ProcObs) (acc : PidMap × List ProcInfo)
    (e : ProcInfo) (h : e ∈ acc.2) :
    e ∈ (l.foldl processObs acc).2 := by
  induction l generalizing acc with
  | nil => exact h
  | cons o rest ih =>
    rw [List.foldl_cons]
    apply ih
    unfold processObs
    by_cases hf : o.fails = true
    · rw [if_pos hf]
      exact h
    · rw [if_neg hf]
      cases hl : lookupPid acc.1 o.pid <;> simp [h]

/-- The loop body on a non-failing observation whose pid is not in the
cache: the pid is entered with stored baseline `ctrSecond`, and the
reported cpu figure is the within-scan delta `ctrSecond - ctrFirst`,
independent of anything stored before. -/
theorem processObs_new (acc : PidMap × List ProcInfo) (o : ProcObs)
    (hf : o.fails = false) (h : lookupPid acc.1 o.pid = none) :
    processObs acc o =
      (acc.1 ++ [(o.pid, o.ctrSecond)],
        acc.2 ++ [⟨o.pid, o.name, o.ctrSecond - o.ctrFirst, o.memPercent⟩]) := by
  unfold processObs
  rw [if_neg (by simp [hf]), h]

/-- A scan whose observation list contains a non-failing observation of a
pid that is absent from the pruned cache (and observed exactly once)
treats that pid as fresh: the produced entry's cpu figure is the
within-scan delta, and the stored baseline afterwards is this scan's
reading. -/
theorem scanStep_fresh (m : PidMap) (pids : List Nat) (l1 l2 : List ProcObs)
    (o : ProcObs) (hf : o.fails = false)
    (h1 : ∀ x ∈ l1, x.pid ≠ o.pid) (h2 : ∀ x ∈ l2, x.pid ≠ o.pid)
    (hpr : lookupPid (prunePids m pids) o.pid = none) :
    (⟨o.pid, o.name, o.ctrSecond - o.ctrFirst, o.memPercent⟩ : ProcInfo)
        ∈ (scanStep m pids (l1 ++ o :: l2)).2
    ∧ lookupPid (scanStep m pids (l1 ++ o :: l2)).1 o.pid = some o.ctrSecond := by
  unfold scanStep
  rw [List.foldl_append, List.foldl_cons]
  have hnone : lookupPid (l1.foldl processObs (prunePids m pids, [])).1 o.pid
      = none := by
    rw [foldl_processObs_lookup_ne l1 _ _ h1]
    exact hpr
  have hstep := processObs_new (l1.foldl processObs (prunePids m pids, [])) o hf hnone
  constructor
  · apply foldl_processObs_mem
    rw [hstep]
    simp
  · rw [foldl_processObs_lookup_ne l2 _ _ h2, hstep]
    exact lookupPid_append_self _ o.pid o.ctrSecond hnone

/-- Over a positive divisor, a difference of naturals cast to ℚ divides to
a negative number exactly when the first natural is smaller. -/
theorem rate_neg_iff (x y : Nat) (d : ℚ) (hd : 0 < d) :
    ((x : ℚ) - (y : ℚ)) / d < 0 ↔ x < y := by
  rw [div_neg_iff]
  constructor
  · rintro (⟨h1, h2⟩ | ⟨h1, h2⟩)
    · linarith
    · have h3 : (x : ℚ) < y := by linarith
      exact_mod_cast h3
  · intro h
    right
    have h3 : (x : ℚ) < y := by exact_mod_cast h
    exact ⟨by linarith, hd⟩

/-! ### Claims -/

/-- Claim C1 counterexample: with a previous sent-counter reading of 1000
and a current reading of 500 one second later, the raw OS counter
decreased between the two `collect` calls (a counter reset), yet the
reported sent rate is strictly negative -- in particular not the claimed
0. -/
theorem C1_counterexample :
    i1x.net.bytesSent < s1x.lastNet.bytesSent
    ∧ (collect s1x i1x).metrics.netSent < 0
    ∧ (collect s1x i1x).metrics.netSent ≠ 0 := by
  refine ⟨by norm_num [i1x, i0, s1x], ?_, ?_⟩
  · rw [collect_netSent]
    norm_num [s1x, i1x, i0, codeNetDivisor]
  · rw [collect_netSent]
    norm_num [s1x, i1x, i0, codeNetDivisor]

/-- Claim C1 (corrected): over a positive elapsed interval the reported
network rates are the raw counter deltas divided by the elapsed time, with
no reset handling: the reported rate is negative exactly when the raw OS
counter read on the current call is smaller than the counter read on the
previous call, so a counter reset yields a negative rate for that cycle,
not 0. -/
theorem C1_amended : ∀ (s : CollectorState) (i : CollectInput),
    0 < i.now - s.lastTime →
    ((collect s i).metrics.netSent =
        (((i.net.bytesSent : ℚ)) - ((s.lastNet.bytesSent : ℚ)))
          / (i.now - s.lastTime)
    ∧ ((collect s i).metrics.netSent < 0 ↔
        i.net.bytesSent < s.lastNet.bytesSent)
    ∧ (collect s i).metrics.netRecv =
        (((i.net.bytesRecv : ℚ)) - ((s.lastNet.bytesRecv : ℚ)))
          / (i.now - s.lastTime)
    ∧ ((collect s i).metrics.netRecv < 0 ↔
        i.net.bytesRecv < s.lastNet.bytesRecv)) := by
  intro s i h
  have hne : i.now - s.lastTime ≠ 0 := ne_of_gt h
  have hdiv : codeNetDivisor (i.now - s.lastTime) = i.now - s.lastTime := by
    rw [codeNetDivisor, if_neg hne]
  have hsent := collect_netSent s i
  have hrecv := collect_netRecv s i
  rw [hdiv] at hsent hrecv
  refine ⟨hsent, ?_, hrecv, ?_⟩
  · rw [hsent]
    exact rate_neg_iff _ _ _ h
  · rw [hrecv]
    exact rate_neg_iff _ _ _ h

/-- Witness for the corrected C1 at the concrete counter-reset fixture. -/
theorem C1_amended_witness :
    (0 : ℚ) < i1x.now - s1x.lastTime
    ∧ ((collect s1x i1x).metrics.netSent =
        (((i1x.net.bytesSent : ℚ)) - ((s1x.lastNet.bytesSent : ℚ)))
          / (i1x.now - s1x.lastTime)
    ∧ ((collect s1x i1x).metrics.netSent < 0 ↔
        i1x.net.bytesSent < s1x.lastNet.bytesSent)
    ∧ (collect s1x i1x).metrics.netRecv =
        (((i1x.net.bytesRecv : ℚ)) - ((s1x.lastNet.bytesRecv : ℚ)))
          / (i1x.now - s1x.lastTime)
    ∧ ((collect s1x i1x).metrics.netRecv < 0 ↔
        i1x.net.bytesRecv < s1x.lastNet.bytesRecv)) :=
  ⟨by norm_num [i1x, i0, s1x],
   C1_amended s1x i1x (by norm_num [i1x, i0, s1x])⟩

/-- Claim C2 counterexample: with the memory trigger recorded at time 0
and a check at time 60 with memory at 95 percent, the claim's refire
condition now - t ≥ 60 holds, yet the code's strict comparison
`now - last > 60` is false and no reclamation fires on this cycle. -/
theorem C2_counterexample :
    (60 : ℚ) - 0 ≥ 60 ∧ (95 : ℚ) > 90
    ∧ Event.reclaimInvoked ∉
        (check { lastTrigger := some 0 } 0 95 60 envOk true).trace := by
  refine ⟨by norm_num, by norm_num, ?_⟩
  rw [reclaim_mem_iff]
  norm_num [memThreshold, cooldown]

/-- Claim C2 (corrected): once the memory rule has triggered at time t, no
reclamation fires on a later `check` while now - t ≤ 60 (including at
exactly 60 seconds); it fires again exactly on a cycle with now - t
strictly greater than 60 and memory above threshold; and a run whose first
cycle freshly triggers and whose remaining cycles all lie strictly within
60 seconds of it, with memory continuously above threshold, fires the
reclamation exactly once. -/
theorem C2_amended :
    (∀ (t cpu mem now : ℚ) (env : CleanEnv) (cb : Bool),
        now - t ≤ 60 →
        Event.reclaimInvoked ∉
          (check { lastTrigger := some t } cpu mem now env cb).trace)
    ∧ (∀ (t cpu mem now : ℚ) (env : CleanEnv) (cb : Bool),
        60 < now - t → 90 < mem →
        Event.reclaimInvoked ∈
          (check { lastTrigger := some t } cpu mem now env cb).trace)
    ∧ (∀ (t : ℚ) (c : CycleInput) (cs : List CycleInput),
        60 < c.now - t → 90 < c.mem →
        (∀ cc ∈ cs, 90 < cc.mem ∧ cc.now - c.now < 60) →
        countFires { lastTrigger := some t } (c :: cs) = 1) := by
  have hgd : ∀ t : ℚ, ({ lastTrigger := some t } : AlertState).lastTrigger.getD 0 = t :=
    fun t => rfl
  have hcd : cooldown = (60 : ℚ) := rfl
  have hmd : memThreshold = (90 : ℚ) := rfl
  refine ⟨?_, ?_, ?_⟩
  · intro t cpu mem now env cb h
    rw [reclaim_mem_iff]
    rintro ⟨-, h2⟩
    rw [hgd, hcd] at h2
    linarith
  · intro t cpu mem now env cb h1 h2
    rw [reclaim_mem_iff, hgd, hcd, hmd]
    exact ⟨h2, h1⟩
  · intro t c cs h1 h2 h3
    rw [countFires_cons]
    have hfire : Event.reclaimInvoked ∈
        (check { lastTrigger := some t } c.cpu c.mem c.now c.env c.hasCallback).trace := by
      rw [reclaim_mem_iff, hgd, hcd, hmd]
      exact ⟨h2, h1⟩
    have hst : (check { lastTrigger := some t } c.cpu c.mem c.now c.env
        c.hasCallback).state = { lastTrigger := some c.now } := by
      rw [check_state_eq, hgd, hcd, hmd, if_pos ⟨h2, h1⟩]
    rw [if_pos hfire, hst,
      countFires_zero c.now cs (by
        intro cc hcc hcon
        rw [hcd] at hcon
        have h4 := (h3 cc hcc).2
        linarith)]

/-- Witness for the corrected C2 at concrete cycles: suppressed at 30
seconds, refiring at 100 seconds, and a two-cycle run 30 seconds apart
firing exactly once. -/
theorem C2_amended_witness :
    ((30 : ℚ) - 0 ≤ 60
      ∧ Event.reclaimInvoked ∉
          (check { lastTrigger := some 0 } 0 95 30 envOk true).trace)
    ∧ ((60 : ℚ) < 100 - 0 ∧ (90 : ℚ) < 95
      ∧ Event.reclaimInvoked ∈
          (check { lastTrigger := some 0 } 0 95 100 envOk true).trace)
    ∧ countFires { lastTrigger := some 0 } [cyc1, cyc2] = 1 :=
  ⟨⟨by norm_num, C2_amended.1 0 0 95 30 envOk true (by norm_num)⟩,
   ⟨by norm_num, by norm_num,
     C2_amended.2.1 0 0 95 100 envOk true (by norm_num) (by norm_num)⟩,
   C2_amended.2.2 0 cyc1 [cyc2] (by norm_num [cyc1]) (by norm_num [cyc1])
     (by
       intro cc hcc
       simp only [List.mem_singleton] at hcc
       subst hcc
       norm_num [cyc1, cyc2])⟩

/-- Claim C3 counterexample: on the unrecognised platform "plan9" with a
working gc step, `clean` attempts no platform step but returns True, not
the claimed False: the generic gc step alone already counts as success. -/
theorem C3_counterexample :
    recognizedOS envPlan9.osType = false
    ∧ (clean envPlan9).attemptedPlatform = false
    ∧ (clean envPlan9).success = true := by decide

/-- Claim C3 (corrected): `clean` never raises -- it returns a boolean on
every environment, including every exception scenario.  On an unrecognised
platform no platform-specific step is attempted.  But the overall result
is False exactly when the generic gc step raised: the gc step alone counts
as success, so an unrecognised platform (or one on which every platform
step failed) still returns True whenever gc completed. -/
theorem C3_amended : ∀ env : CleanEnv,
    (clean env).attemptedPlatform = (!env.gcRaises && recognizedOS env.osType)
    ∧ (clean env).success = !env.gcRaises :=
  fun env => ⟨clean_attempted env, clean_success env⟩

/-- Claim C4 counterexample: on linux with gc succeeding and libc loading
raising inside the platform step, an exception is raised during the
reclamation call, yet `check` emits the "completed" notification and not
"skipped": the result is True, not the claimed False. -/
theorem C4_counterexample :
    exceptionDuringClean envLinRaise = true
    ∧ Event.notifyCompleted ∈
        (check { lastTrigger := none } 0 95 100 envLinRaise true).trace
    ∧ Event.notifySkipped ∉
        (check { lastTrigger := none } 0 95 100 envLinRaise true).trace := by
  refine ⟨by decide, ?_, ?_⟩
  · norm_num [check, memThreshold, cooldown, cpuThreshold, clean_success,
      envLinRaise]
  · norm_num [check, memThreshold, cooldown, cpuThreshold, clean_success,
      envLinRaise]
    simp

/-- Claim C4 (corrected): on a firing cycle in which an exception is
raised during the reclamation call, the exception is caught inside the
cleaner and never propagates -- the call runs to completion and the
memory alert is still appended -- but the result is treated as
reclaimed = false ("skipped") exactly when the generic gc step raised;
an exception in the platform-specific step after gc succeeded yields
reclaimed = true and the "completed" notification. -/
theorem C4_amended : ∀ (s : AlertState) (cpu mem now : ℚ) (env : CleanEnv),
    memThreshold < mem → cooldown < now - s.lastTrigger.getD 0 →
    exceptionDuringClean env = true →
    (Event.alertMemory mem ∈ (check s cpu mem now env true).trace
    ∧ (Event.notifySkipped ∈ (check s cpu mem now env true).trace ↔
        env.gcRaises = true)
    ∧ (Event.notifyCompleted ∈ (check s cpu mem now env true).trace ↔
        env.gcRaises = false)) := by
  intro s cpu mem now env h1 h2 _
  have hcl := clean_success env
  simp only [check]
  rw [if_pos h1, if_pos h2]
  cases hg : env.gcRaises <;> rw [hg] at hcl <;>
    by_cases hcp : cpuThreshold < cpu <;>
      simp [hcl, hcp, List.mem_append]

/-- Witness for the corrected C4: `gc.collect` itself raising yields the
"skipped" notification on a firing cycle. -/
theorem C4_amended_witness :
    (memThreshold < (95 : ℚ)
      ∧ cooldown < (100 : ℚ)
          - (({ lastTrigger := none } : AlertState)).lastTrigger.getD 0
      ∧ exceptionDuringClean envGcRaise = true)
    ∧ (Event.alertMemory 95 ∈
        (check { lastTrigger := none } 0 95 100 envGcRaise true).trace
    ∧ (Event.notifySkipped ∈
        (check { lastTrigger := none } 0 95 100 envGcRaise true).trace ↔
        envGcRaise.gcRaises = true)
    ∧ (Event.notifyCompleted ∈
        (check { lastTrigger := none } 0 95 100 envGcRaise true).trace ↔
        envGcRaise.gcRaises = false)) :=
  ⟨⟨by norm_num [memThreshold], by norm_num [cooldown], by decide⟩,
   C4_amended { lastTrigger := none } 0 95 100 envGcRaise
     (by norm_num [memThreshold]) (by norm_num [cooldown]) (by decide)⟩

/-- Claim C5: across `collect` calls, the throttle counter is incremented
exactly once per call whether or not a scan runs; a call whose incremented
tick misses a multiple of 4 performs no scan (pid cache and cached top
list untouched, cached list returned) while a call that hits one with a
working enumeration computes and caches a fresh top list; and starting
from a just-scanned state, every call of a run of at most 3 cycles returns
the top list of the most recent scan unchanged. -/
theorem C5_theorem :
    (∀ (s : CollectorState) (i : CollectInput),
        (collect s i).state.tick = s.tick + 1)
    ∧ (∀ (s : CollectorState) (i : CollectInput), (s.tick + 1) % 4 ≠ 0 →
        (collect s i).state.procs = s.procs
        ∧ (collect s i).state.cachedTopProcs = s.cachedTopProcs
        ∧ (collect s i).metrics.topProcs = s.cachedTopProcs)
    ∧ (∀ (s : CollectorState) (i : CollectInput),
        (s.tick + 1) % 4 = 0 → i.scanFails = false →
        (collect s i).metrics.topProcs
            = sortTop (scanStep s.procs i.pids i.liveProcs).2
        ∧ (collect s i).state.cachedTopProcs = (collect s i).metrics.topProcs)
    ∧ (∀ (s : CollectorState) (is : List CollectInput),
        s.tick % 4 = 0 → is.length ≤ 3 →
        ∀ m ∈ (runCollect s is).2, m.topProcs = s.cachedTopProcs) := by
  refine ⟨collect_tick, ?_, ?_, ?_⟩
  · intro s i h
    exact ⟨(collect_noScan s i h).1, (collect_noScan s i h).2.1,
      (collect_noScan s i h).2.2.1⟩
  · intro s i h hf
    refine ⟨(collect_scan s i h hf).2.1, ?_⟩
    rw [(collect_scan s i h hf).2.2, (collect_scan s i h hf).2.1]
  · intro s is h hl
    apply runCollect_noScan
    intro j hj
    have hj3 : j < 3 := lt_of_lt_of_le hj hl
    omega

/-- Witness for C5 at concrete states: a fresh state (tick 0, no scan on
the next call) and a state about to scan (tick 3). -/
theorem C5_theorem_witness :
    (collect s0 i0).state.tick = s0.tick + 1
    ∧ ((collect s0 i0).state.procs = s0.procs
      ∧ (collect s0 i0).state.cachedTopProcs = s0.cachedTopProcs
      ∧ (collect s0 i0).metrics.topProcs = s0.cachedTopProcs)
    ∧ ((collect sScan iScan).metrics.topProcs
          = sortTop (scanStep sScan.procs iScan.pids iScan.liveProcs).2
      ∧ (collect sScan iScan).state.cachedTopProcs
          = (collect sScan iScan).metrics.topProcs)
    ∧ (collect s0 i0).metrics.topProcs = s0.cachedTopProcs :=
  ⟨C5_theorem.1 s0 i0,
   C5_theorem.2.1 s0 i0 (by norm_num [s0, initState]),
   C5_theorem.2.2.1 sScan iScan (by norm_num [sScan]) rfl,
   C5_theorem.2.2.2 s0 [i0] (by norm_num [s0, initState]) (by norm_num)
     (collect s0 i0).metrics (by simp [runCollect])⟩

/-- Claim C6: on a scan, every tracked pid absent from the live pid set is
removed from the tracking cache before the live processes are examined.
Consequently a pid that is absent from `psutil.pids()` (or simply no
longer tracked) but observed by the process iteration is treated as fresh:
its reported cpu figure is the within-scan delta of this cycle's two
accounting reads -- a discarded fresh baseline, never the old process's
stored accounting -- and its new stored baseline is this cycle's reading;
and a tracked pid absent from both is simply no longer tracked after the
scan. -/
theorem C6_theorem :
    (∀ (s : CollectorState) (i : CollectInput) (p : Nat),
        (s.tick + 1) % 4 = 0 → i.scanFails = false →
        i.pids.contains p = false →
        (∀ o ∈ i.liveProcs, o.pid ≠ p) →
        lookupPid (collect s i).state.procs p = none)
    ∧ (∀ (s : CollectorState) (i : CollectInput) (o : ProcObs),
        (s.tick + 1) % 4 = 0 → i.scanFails = false →
        (i.pids.contains o.pid = false ∨ lookupPid s.procs o.pid = none) →
        o ∈ i.liveProcs → o.fails = false →
        (i.liveProcs.map ProcObs.pid).Nodup →
        ((⟨o.pid, o.name, o.ctrSecond - o.ctrFirst, o.memPercent⟩ : ProcInfo)
            ∈ (scanStep s.procs i.pids i.liveProcs).2
        ∧ lookupPid (collect s i).state.procs o.pid = some o.ctrSecond)) := by
  constructor
  · intro s i p ht hf hcont hlive
    rw [(collect_scan s i ht hf).1]
    unfold scanStep
    rw [foldl_processObs_lookup_ne i.liveProcs _ _ hlive]
    unfold prunePids
    apply lookupPid_filter_none
    intro e he hep
    rw [hep]
    exact hcont
  · intro s i o ht hf hdisj hmem hof hnodup
    obtain ⟨l1, l2, hsplit⟩ := List.append_of_mem hmem
    have hnodup2 := hnodup
    rw [hsplit, List.map_append, List.map_cons] at hnodup2
    have h1 : ∀ x ∈ l1, x.pid ≠ o.pid := by
      intro x hx hxeq
      have hmem1 : o.pid ∈ l1.map ProcObs.pid := by
        rw [← hxeq]
        exact List.mem_map_of_mem _ hx
      exact (List.disjoint_of_nodup_append hnodup2) hmem1 (List.mem_cons_self _ _)
    have h2 : ∀ x ∈ l2, x.pid ≠ o.pid := by
      intro x hx hxeq
      have hmem2 : o.pid ∈ l2.map ProcObs.pid := by
        rw [← hxeq]
        exact List.mem_map_of_mem _ hx
      exact (List.nodup_cons.mp (List.Nodup.of_append_right hnodup2)).1 hmem2
    have hpr : lookupPid (prunePids s.procs i.pids) o.pid = none := by
      unfold prunePids
      rcases hdisj with hc | hn
      · apply lookupPid_filter_none
        intro e he hep
        rw [hep]
        exact hc
      · exact lookupPid_filter_of_none _ _ _ hn
    have hkey := scanStep_fresh s.procs i.pids l1 l2 o hof h1 h2 hpr
    constructor
    · rw [hsplit]
      exact hkey.1
    · rw [(collect_scan s i ht hf).1, hsplit]
      exact hkey.2

/-- Witness for C6 at the concrete fixtures: pid 42 tracked with an old
baseline of 7 disappears on one scan, and on the race input its entry's
cpu figure is 6 - 5 with a new stored baseline of 6. -/
theorem C6_theorem_witness :
    lookupPid (collect sScan iScanA).state.procs 42 = none
    ∧ ((⟨obs42.pid, obs42.name, obs42.ctrSecond - obs42.ctrFirst,
          obs42.memPercent⟩ : ProcInfo)
        ∈ (scanStep sScan.procs iScan.pids iScan.liveProcs).2
      ∧ lookupPid (collect sScan iScan).state.procs obs42.pid
          = some obs42.ctrSecond) :=
  ⟨C6_theorem.1 sScan iScanA 42 (by norm_num [sScan]) rfl rfl
     (by simp [iScanA, i0]),
   C6_theorem.2 sScan iScan obs42 (by norm_num [sScan]) rfl (Or.inl rfl)
     (by simp [iScan, i0]) rfl (by simp [iScan, i0])⟩

/-- Claim C7: a CPU alert event is in the returned alerts list exactly
when the snapshot's cpu percent strictly exceeds the 85 threshold, on
every call and independently of the manager's state (no cooldown or
debounce applies to the cpu rule). -/
theorem C7_theorem : ∀ (s : AlertState) (cpu mem now : ℚ) (env : CleanEnv)
    (cb : Bool),
    (Event.alertCpu cpu ∈ (check s cpu mem now env cb).alerts ↔
      cpuThreshold < cpu) := by
  intro s cpu mem now env cb
  simp only [check]
  split_ifs <;> simp_all [List.mem_append]

/-- Claim C8: on every fresh memory trigger (memory above threshold,
cooldown elapsed) with the ui callback supplied, the emissions of `check`
after the cpu rule are exactly, in order: the `last_trigger` write, the
"detected" notification, the reclamation call, the "completed"/"skipped"
notification according to the boolean result, and the memory alert event;
and the recorded trigger time is `now`. -/
theorem C8_theorem : ∀ (s : AlertState) (cpu mem now : ℚ) (env : CleanEnv),
    memThreshold < mem → cooldown < now - s.lastTrigger.getD 0 →
    ((check s cpu mem now env true).trace =
        (if cpuThreshold < cpu then [Event.alertCpu cpu] else [])
          ++ [Event.setLastTrigger now, Event.notifyDetected mem,
              Event.reclaimInvoked,
              (if (clean env).success = true then Event.notifyCompleted
                else Event.notifySkipped),
              Event.alertMemory mem]
    ∧ (check s cpu mem now env true).state.lastTrigger = some now) := by
  intro s cpu mem now env h1 h2
  simp only [check]
  rw [if_pos h1, if_pos h2]
  constructor
  · simp
  · rfl

/-- Witness for C8 at a concrete fresh trigger. -/
theorem C8_theorem_witness :
    (memThreshold < (95 : ℚ)
      ∧ cooldown < (100 : ℚ)
          - (({ lastTrigger := none } : AlertState)).lastTrigger.getD 0)
    ∧ ((check { lastTrigger := none } 0 95 100 envOk true).trace =
        (if cpuThreshold < (0 : ℚ) then [Event.alertCpu 0] else [])
          ++ [Event.setLastTrigger 100, Event.notifyDetected 95,
              Event.reclaimInvoked,
              (if (clean envOk).success = true then Event.notifyCompleted
                else Event.notifySkipped),
              Event.alertMemory 95]
      ∧ (check { lastTrigger := none } 0 95 100 envOk true).state.lastTrigger
          = some 100) :=
  ⟨⟨by norm_num [memThreshold], by norm_num [cooldown]⟩,
   C8_theorem { lastTrigger := none } 0 95 100 envOk
     (by norm_num [memThreshold]) (by norm_num [cooldown])⟩

/-- Claim C9 counterexample: with 0.0005 s elapsed and one new sent byte,
the code divides by the raw elapsed time and reports 2000 bytes/s, while
the claimed formula with divisor `max(elapsed, 0.001)` yields 1000: the
code's divisor is not `max(elapsed_seconds, epsilon)`. -/
theorem C9_counterexample :
    (collect s0 i9x).metrics.netSent = 2000
    ∧ (((i9x.net.bytesSent : ℚ)) - ((s0.lastNet.bytesSent : ℚ)))
        / specNetDivisor (i9x.now - s0.lastTime) = 1000
    ∧ ((2000 : ℚ) ≠ 1000) := by
  refine ⟨?_, ?_, by norm_num⟩
  · rw [collect_netSent]
    norm_num [s0, initState, i9x, i0, codeNetDivisor]
  · norm_num [s0, initState, i9x, i0, specNetDivisor]

/-- Claim C9 (corrected): each network rate is the counter delta divided
by `codeNetDivisor` of the elapsed time, which is the raw elapsed time
unless that is exactly zero, in which case it is 0.001; the divisor is
positive -- so the division is well-defined -- whenever the elapsed time
is nonnegative, including the zero-elapsed case, but for elapsed times
strictly between 0 and 0.001 it is the elapsed time itself, not
`max(elapsed, 0.001)`. -/
theorem C9_amended :
    (∀ (s : CollectorState) (i : CollectInput),
        (collect s i).metrics.netSent =
          (((i.net.bytesSent : ℚ)) - ((s.lastNet.bytesSent : ℚ)))
            / codeNetDivisor (i.now - s.lastTime)
        ∧ (collect s i).metrics.netRecv =
          (((i.net.bytesRecv : ℚ)) - ((s.lastNet.bytesRecv : ℚ)))
            / codeNetDivisor (i.now - s.lastTime))
    ∧ (∀ d : ℚ, 0 ≤ d → 0 < codeNetDivisor d)
    ∧ codeNetDivisor 0 = 1 / 1000 := by
  refine ⟨fun s i => ⟨collect_netSent s i, collect_netRecv s i⟩, ?_,
    by norm_num [codeNetDivisor]⟩
  intro d hd
  rw [codeNetDivisor]
  split_ifs with h
  · norm_num
  · exact lt_of_le_of_ne hd (Ne.symm h)

/-- Witness for the corrected C9 at the sub-epsilon fixture and at zero
elapsed time. -/
theorem C9_amended_witness :
    ((collect s0 i9x).metrics.netSent =
        (((i9x.net.bytesSent : ℚ)) - ((s0.lastNet.bytesSent : ℚ)))
          / codeNetDivisor (i9x.now - s0.lastTime))
    ∧ ((0 : ℚ) ≤ 0 ∧ 0 < codeNetDivisor 0) :=
  ⟨(C9_amended.1 s0 i9x).1, by norm_num, C9_amended.2.1 0 (by norm_num)⟩

/-- Claim C10: from a freshly constructed collector (tick 0, empty cached
top list), the first three `collect` calls perform no scan -- the pid
cache stays empty and each returns the empty top list -- and the fourth
call is the first whose incremented tick is divisible by 4. -/
theorem C10_theorem : ∀ (n : NetCounters) (t : ℚ) (i1 i2 i3 : CollectInput),
    (initState n t).cachedTopProcs = []
    ∧ (collect (initState n t) i1).metrics.topProcs = []
    ∧ (collect (initState n t) i1).state.procs = []
    ∧ (collect (collect (initState n t) i1).state i2).metrics.topProcs = []
    ∧ (collect (collect (initState n t) i1).state i2).state.procs = []
    ∧ (collect (collect (collect (initState n t) i1).state i2).state
        i3).metrics.topProcs = []
    ∧ (collect (collect (collect (initState n t) i1).state i2).state
        i3).state.procs = []
    ∧ (collect (collect (collect (initState n t) i1).state i2).state
        i3).state.tick = 3
    ∧ ((collect (collect (collect (initState n t) i1).state i2).state
        i3).state.tick + 1) % 4 = 0 := by
  intro n t i1 i2 i3
  have e0t : (initState n t).tick = 0 := rfl
  have e0c : (initState n t).cachedTopProcs = [] := rfl
  have e0p : (initState n t).procs = [] := rfl
  have h1 := collect_noScan (initState n t) i1 (by rw [e0t]; norm_num)
  have h2 := collect_noScan (collect (initState n t) i1).state i2
    (by rw [h1.2.2.2, e0t]; norm_num)
  have h3 := collect_noScan (collect (collect (initState n t) i1).state
      i2).state i3
    (by rw [h2.2.2.2, h1.2.2.2, e0t]; norm_num)
  refine ⟨e0c, ?_, ?_, ?_, ?_, ?_, ?_, ?_, ?_⟩
  · rw [h1.2.2.1, e0c]
  · rw [h1.1, e0p]
  · rw [h2.2.2.1, h1.2.1, e0c]
  · rw [h2.1, h1.1, e0p]
  · rw [h3.2.2.1, h2.2.1, h1.2.1, e0c]
  · rw [h3.1, h2.1, h1.1, e0p]
  · rw [h3.2.2.2, h2.2.2.2, h1.2.2.2, e0t]
  · rw [h3.2.2.2, h2.2.2.2, h1.2.2.2, e0t]
